import Mathlib

/-!
Verification development for the conda channel publishing core
(`assets/common.py`): the channel-data model (`ChannelData`), the
file-transfer publish protocol (`ftp_lock`, `FTPConnection.upload_local_data`),
the connection dispatch (`connect`) and the version codec
(`to_version` / `from_version`).

Python dicts with string keys are modelled as insertion-ordered association
lists (`dictLookup` / `dictInsert` / `dictRemove`).  Remote effects (FTP
commands) are modelled as an explicit event trace (`FtpEvent`); the remote
endpoint is abstracted by functions giving the outcome of each retrieve
(`FetchResult`) and the availability of the lock directory at each attempt
(`free : Nat → Bool`).  Time is discrete: each failed lock attempt sleeps a
fixed 5 seconds, so elapsed time after the k-th failure is 5*k seconds.
-/

set_option maxHeartbeats 1000000

/-- First-match lookup in an association list, modelling Python `d[k]` /
`d.get(k)` on a dict with string keys. -/
def dictLookup {α : Type} (k : String) : List (String × α) → Option α
  | [] => none
  | p :: rest => if p.1 = k then some p.2 else dictLookup k rest

/-- Python `d[k] = v` on an insertion-ordered dict: overwrite in place if the
key exists, else append. -/
def dictInsert {α : Type} (k : String) (v : α) (d : List (String × α)) :
    List (String × α) :=
  if d.any (fun p => p.1 == k) then
    d.map (fun p => if p.1 = k then (p.1, v) else p)
  else d ++ [(k, v)]

/-- Python `d.pop(k, ...)`: the dict that remains after removing key `k`. -/
def dictRemove {α : Type} (k : String) (d : List (String × α)) :
    List (String × α) :=
  d.filter (fun p => p.1 != k)

/-- Apply `f` to the value stored under key `k` (all occurrences), leaving
other entries alone.  This is the in-place mutation
`d[k]['packages'][...] = ...` seen from the outer dict. -/
def updateAt {α : Type} (k : String) (f : α → α) (d : List (String × α)) :
    List (String × α) :=
  d.map (fun p => if p.1 = k then (p.1, f p.2) else p)

/-- A package record as stored in repodata.  The code reads the
`name`, `version` and `subdir` fields; everything else is opaque. -/
structure PackageSpec where
  name : String
  version : String
  subdir : String
  extra : List (String × String)
  deriving DecidableEq

/-- One subdir's repodata record: `{'info': {...}, 'packages': {...}}`. -/
structure Repodata where
  info : List (String × String)
  packages : List (String × PackageSpec)
  deriving DecidableEq

/-- The default record substituted when a subdir has no repodata file:
`{'info': {}, 'packages': {}}` (common.py line 60). -/
def emptyRepodata : Repodata := ⟨[], []⟩

/-- Outcome of fetching and parsing `<subdir>/repodata.json` from a source.
`notFound` is the translated "not found" condition (`FileNotFoundError`:
either a failed `open` of a local file, or the translation of a
permission-denied FTP retrieve in `FTPConnection.download`).  `fault e` is
any other transport or parse fault, which `ChannelData.__init__` does not
catch. -/
inductive FetchResult where
  | ok (rd : Repodata)
  | notFound
  | fault (e : String)
  deriving DecidableEq

/-- Whether a fetch outcome is an uncaught transport/parse fault. -/
def FetchResult.isFault : FetchResult → Bool
  | .fault _ => true
  | _ => false

/-- In-memory channel data: the optional local root and the per-subdir
repodata mapping (common.py `ChannelData`). -/
structure ChannelData where
  root : Option String
  repodata : List (String × Repodata)
  deriving DecidableEq

/-- The fixed supported architecture subdirectories (common.py line 32). -/
def ChannelData.SUBDIRS : List String :=
  ["noarch", "osx-64", "linux-64", "linux-32", "win-64", "win-32"]

/-- The repodata index filename (common.py line 33). -/
def ChannelData.REPODATA : String := "repodata.json"

/-- Suffix of the compressed twin of a repodata file (common.py line 34). -/
def ChannelData.ZIP_EXT : String := ".bz2"

/-- Relative path of a subdir's repodata file:
`os.path.join(subdir, 'repodata.json')`. -/
def repodataPath (subdir : String) : String :=
  subdir ++ "/" ++ ChannelData.REPODATA

/-- An FTP side effect, in issue order.  `storBinary` is the STOR issued for
a package file in the binary loop of `upload_local_data` (common.py line
232); `storRepodata` is the STOR issued for a repodata index file in the
final loop (line 235).  Both are plain FTP STOR commands, tagged here by
the loop that issues them.  `sleep` is the fixed wait between lock retries. -/
inductive FtpEvent where
  | mkd (path : String)
  | retr (path : String)
  | storBinary (path : String) (contents : List Nat)
  | storRepodata (path : String) (contents : List Nat)
  | rmd (path : String)
  | sleep (seconds : Nat)
  deriving DecidableEq

/-- The loader loop of `ChannelData.__init__` (common.py lines 47-60) over a
list of subdirs: fetch `<subdir>/repodata.json`; a `notFound` outcome is
caught and replaced by the empty default record; any `fault` propagates
(aborting construction); an `ok` result is stored unchanged.  Returns the
per-subdir records together with the trace of retrieves issued. -/
def loadGo (fetch : String → FetchResult) :
    List String → Except String (List (String × Repodata)) × List FtpEvent
  | [] => (.ok [], [])
  | s :: rest =>
    match fetch (repodataPath s) with
    | .fault e => (.error e, [.retr (repodataPath s)])
    | .ok rd =>
      let r := loadGo fetch rest
      (r.1.map (fun tail => (s, rd) :: tail), .retr (repodataPath s) :: r.2)
    | .notFound =>
      let r := loadGo fetch rest
      (r.1.map (fun tail => (s, emptyRepodata) :: tail),
        .retr (repodataPath s) :: r.2)

/-- `ChannelData(conn=...)` / `ChannelData(path=...)` (common.py lines
36-60): load one record per supported subdir.  `fetch` abstracts the single
source (a connection's `download` plus `json.load`, or a local
`open`/`json.load`); construction from a connection leaves `root = none`. -/
def ChannelData.load (fetch : String → FetchResult) :
    Except String ChannelData × List FtpEvent :=
  let r := loadGo fetch ChannelData.SUBDIRS
  (r.1.map (fun rds => ⟨none, rds⟩), r.2)

/-- `ChannelData.add` (common.py lines 68-69):
`self._repodata[spec['subdir']]['packages'][filename] = spec`.  Indexing a
dict with an absent key raises, modelled as `.error` carrying the key. -/
def ChannelData.add (cd : ChannelData) (filename : String)
    (spec : PackageSpec) : Except String ChannelData :=
  if cd.repodata.any (fun p => p.1 == spec.subdir) then
    .ok ⟨cd.root,
      updateAt spec.subdir
        (fun rd => ⟨rd.info, dictInsert filename spec rd.packages⟩)
        cd.repodata⟩
  else .error spec.subdir

/-- The add loop of `upload_local_data` (common.py lines 222-224), folding
`ChannelData.add` over a list of `(filename, spec)` entries. -/
def addAll (cd : ChannelData) :
    List (String × PackageSpec) → Except String ChannelData
  | [] => .ok cd
  | (fn, sp) :: rest =>
    match cd.add fn sp with
    | .error e => .error e
    | .ok cd' => addAll cd' rest

/-- The filter of `ChannelData.iter_entries` (common.py lines 83-86):
keep a spec unless a requested name or version differs. -/
def specMatches (name version : Option String) (spec : PackageSpec) : Bool :=
  (match name with
   | none => true
   | some n => n == spec.name) &&
  (match version with
   | none => true
   | some v => v == spec.version)

/-- `ChannelData.iter_entries` (common.py lines 80-87): all `(filename,
spec)` pairs across subdirs, in dict order, filtered by optional exact-match
name/version. -/
def ChannelData.iter_entries (cd : ChannelData)
    (name version : Option String) : List (String × PackageSpec) :=
  cd.repodata.flatMap
    (fun p => p.2.packages.filter (fun q => specMatches name version q.2))

/-- `ChannelData.iter_paths` (common.py lines 89-91):
`os.path.join(spec['subdir'], filename)` for each matching entry. -/
def ChannelData.iter_paths (cd : ChannelData)
    (name version : Option String) : List String :=
  (cd.iter_entries name version).map (fun q => q.2.subdir ++ "/" ++ q.1)

/-- JSON string literal (model of `json.dumps` on a string; escaping of
special characters is not modelled). -/
def jsonQuote (s : String) : String := "\"" ++ s ++ "\""

/-- Comma-join of already-serialized items, model of `json.dumps`'s
", "-separated listing. -/
def joinComma : List String → String
  | [] => ""
  | [x] => x
  | x :: rest => x ++ ", " ++ joinComma rest

/-- Serialize an opaque string-to-string mapping as a JSON object body. -/
def dumpStrMap (l : List (String × String)) : String :=
  joinComma (l.map (fun p => jsonQuote p.1 ++ ": " ++ jsonQuote p.2))

/-- Serialize one package spec as a JSON object. -/
def dumpSpec (sp : PackageSpec) : String :=
  "\x7b" ++
    joinComma
      ([jsonQuote "name" ++ ": " ++ jsonQuote sp.name,
        jsonQuote "version" ++ ": " ++ jsonQuote sp.version,
        jsonQuote "subdir" ++ ": " ++ jsonQuote sp.subdir] ++
       sp.extra.map (fun p => jsonQuote p.1 ++ ": " ++ jsonQuote p.2)) ++
  "\x7d"

/-- Serialize the packages mapping as a JSON object body. -/
def dumpPackages (l : List (String × PackageSpec)) : String :=
  joinComma (l.map (fun p => jsonQuote p.1 ++ ": " ++ dumpSpec p.2))

/-- Model of `json.dumps(repodata)` (common.py line 76): a deterministic
serialization of `{'info': ..., 'packages': ...}`. -/
def serializeRepodata (rd : Repodata) : String :=
  "\x7b\"info\": \x7b" ++ dumpStrMap rd.info ++
    "\x7d, \"packages\": \x7b" ++ dumpPackages rd.packages ++ "\x7d\x7d"

/-- Model of `.encode('utf-8')`: the byte view of a string (code points). -/
def strBytes (s : String) : List Nat := s.data.map Char.toNat

/-- Model of `bz2.compress` (common.py line 78): an injective framing
(the `BZh` block header bytes followed by the payload), capturing exactly
the property the code relies on: compression is lossless. -/
def bz2Compress (b : List Nat) : List Nat := [66, 90, 104] ++ b

/-- Model of `bz2.decompress`, the inverse of `bz2Compress`. -/
def bz2Decompress (b : List Nat) : List Nat := b.drop 3

/-- `ChannelData.iter_repodata_filehandles` (common.py lines 71-78): for
every subdir in dict order whose packages mapping is non-empty, emit
`(relpath, plainBytes)` then `(relpath + '.bz2', compressedBytes)`;
empty subdirs are skipped. -/
def ChannelData.iter_repodata_filehandles (cd : ChannelData) :
    List (String × List Nat) :=
  cd.repodata.flatMap (fun p =>
    if p.2.packages.isEmpty then []
    else
      [(repodataPath p.1, strBytes (serializeRepodata p.2)),
       (repodataPath p.1 ++ ChannelData.ZIP_EXT,
        bz2Compress (strBytes (serializeRepodata p.2)))])

/-- `ChannelData.get_names` (common.py lines 93-94). -/
def ChannelData.get_names (cd : ChannelData) : List String :=
  (cd.iter_entries none none).map (fun q => q.2.name)

/-- `ChannelData.get_versions` (common.py lines 96-97). -/
def ChannelData.get_versions (cd : ChannelData) (name : String) :
    List String :=
  (cd.iter_entries (some name) none).map (fun q => q.2.version)

/-- Errors raised inside the file-transfer publish protocol.  `lockTimeout`
models the `Exception("Could not acquire '.lock'. Is it stale?")` at
common.py line 169 (LockTimeoutError); `transport` an uncaught fault from a
retrieve; `keyError` the dict indexing failure in `ChannelData.add`;
`noRoot` the `Exception` raised by the `root` property on a
connection-sourced store (line 65). -/
inductive UploadErr where
  | lockTimeout
  | transport (e : String)
  | keyError (k : String)
  | noRoot
  deriving DecidableEq

/-- The name of the remote lock directory (common.py line 158). -/
def lockDir : String := ".lock"

/-- The retry loop of `ftp_lock` (common.py lines 159-169), at attempt
number `k` (so `5 * k` seconds have already been slept).  `free k` tells
whether the `MKD .lock` at attempt `k` succeeds (the directory is absent).
On failure the loop sleeps 5 seconds and gives up with the timeout error as
soon as the elapsed time `5 * (k + 1)` exceeds `5 * 60` seconds.  Returns
the attempt index at which the lock was acquired, with the trace of MKD
attempts and sleeps. -/
def lockGo (free : Nat → Bool) (k : Nat) :
    Except UploadErr Nat × List FtpEvent :=
  if free k then (.ok k, [.mkd lockDir])
  else if h : 5 * (k + 1) > 5 * 60 then
    (.error .lockTimeout, [.mkd lockDir, .sleep 5])
  else
    let r := lockGo free (k + 1)
    (r.1, .mkd lockDir :: .sleep 5 :: r.2)
termination_by 61 - k
decreasing_by omega

/-- Lock acquisition from a cold start (`ftp_lock` before the `yield`). -/
def lockAcquire (free : Nat → Bool) : Except UploadErr Nat × List FtpEvent :=
  lockGo free 0

/-- The `ftp_lock` context manager around a body (common.py lines 156-173):
acquire the lock (propagating a timeout without running the body), run the
body, and remove the lock directory in a `finally` step whether the body
returned normally or raised. -/
def ftp_lock_run {α : Type} (free : Nat → Bool)
    (body : Except UploadErr α × List FtpEvent) :
    Except UploadErr α × List FtpEvent :=
  match lockAcquire free with
  | (.error e, evs) => (.error e, evs)
  | (.ok _, evs) => (body.1, evs ++ body.2 ++ [.rmd lockDir])

/-- Outcome of a raw binary retrieve (`RETR`): data, a permission-denied
response (`ftplib.error_perm`), or some other fault. -/
inductive RetrResult where
  | ok (contents : List Nat)
  | permError
  | otherError (e : String)
  deriving DecidableEq

/-- Errors surfaced by `FTPConnection.download`. -/
inductive DownloadErr where
  | fileNotFound (path : String)
  | transport (e : String)
  deriving DecidableEq

/-- `FTPConnection.download` (common.py lines 211-215): a permission-denied
retrieve is translated into `FileNotFoundError(path)`; other faults
propagate. -/
def FTPConnection.download (retr : String → RetrResult) (path : String) :
    Except DownloadErr (List Nat) :=
  match retr path with
  | .ok b => .ok b
  | .permError => .error (.fileNotFound path)
  | .otherError e => .error (.transport e)

/-- The fetch seen by `ChannelData.__init__` when loading through an
`FTPConnection`: `download` followed by `json.load` (`parse`); a translated
`FileNotFoundError` becomes the caught `notFound` condition, other faults
(including a parse failure) propagate. -/
def ftpFetch (retr : String → RetrResult)
    (parse : List Nat → Option Repodata) (path : String) : FetchResult :=
  match FTPConnection.download retr path with
  | .error (.fileNotFound _) => .notFound
  | .error (.transport e) => .fault e
  | .ok b =>
    match parse b with
    | some rd => .ok rd
    | none => .fault "JSONDecodeError"

/-- `os.path.dirname` for the slash-separated relative paths used here:
everything before the last slash, or the empty string when there is no
slash. -/
def dirname (s : String) : String :=
  String.mk (((s.data.reverse.dropWhile (fun c => c != '/')).drop 1).reverse)

/-- The body of `FTPConnection.upload_local_data` inside the lock
(common.py lines 219-236): load a fresh remote `ChannelData`, compute the
matching relative paths, merge the matching local entries into the fresh
store, STOR each local package file (creating its directory, tolerating
"already exists"), then STOR every repodata filehandle of the merged store.
`remote` gives the fetch outcome of each remote path, `localFile` the bytes
of each local file. -/
def upload_body (remote : String → FetchResult)
    (localFile : String → List Nat) (data : ChannelData)
    (name version : Option String) :
    Except UploadErr (List String) × List FtpEvent :=
  match ChannelData.load remote with
  | (.error e, devs) => (.error (.transport e), devs)
  | (.ok nd, devs) =>
    let relpaths := data.iter_paths name version
    match addAll nd (data.iter_entries name version) with
    | .error k => (.error (.keyError k), devs)
    | .ok newData =>
      match data.root, relpaths with
      | none, rp :: _ => (.error .noRoot, devs ++ [.mkd (dirname rp)])
      | root?, _ =>
        let binEvs := relpaths.flatMap (fun rp =>
          [.mkd (dirname rp),
           .storBinary rp (localFile (root?.getD "" ++ "/" ++ rp))])
        let repoEvs := newData.iter_repodata_filehandles.map
          (fun pr => FtpEvent.storRepodata pr.1 pr.2)
        (.ok relpaths, devs ++ binEvs ++ repoEvs)

/-- `FTPConnection.upload_local_data` (common.py lines 217-238): the merge
and publish body executed under `ftp_lock`. -/
def FTPConnection.upload_local_data (free : Nat → Bool)
    (remote : String → FetchResult) (localFile : String → List Nat)
    (data : ChannelData) (name version : Option String) :
    Except UploadErr (List String) × List FtpEvent :=
  ftp_lock_run free (upload_body remote localFile data name version)

/-- The result of `connect`: which connection variant was constructed
(common.py lines 256-263). -/
inductive ConnectResult where
  | anaconda (channel username password : String)
  | ftpConn (uri channel username password : String) (tls : Bool)
  deriving DecidableEq

/-- Errors raised by `connect`: a missing required configuration key, the
remaining unrecognized keys, or an unsupported URI (common.py lines
250-254, 263). -/
inductive ConnectErr where
  | missingKey (k : String)
  | unknownKeys (ks : List String)
  | unsupportedURI (uri : String)
  deriving DecidableEq

/-- The registry endpoint, `AnacondaConnection.URI` (common.py line 101). -/
def AnacondaConnection.URI : String := "https://conda.anaconda.org"

/-- The full set of configuration keys `connect` consumes; everything else
is rejected. -/
def knownKeys : List String :=
  ["pkg_name", "uri", "channel", "user", "pass", "regex"]

/-- Model of Python `str.startswith`. -/
def strStartsWith (s p : String) : Bool := p.data.isPrefixOf s.data

/-- A source configuration mapping. -/
abbrev Config := List (String × String)

/-- The URI dispatch of `connect` (common.py lines 256-263): exact match
against the registry endpoint, then the `ftp://` and `ftps://` checks, else
the unsupported-URI failure. -/
def connectDispatch (uri channel username password : String) :
    Except ConnectErr ConnectResult :=
  if uri = AnacondaConnection.URI then
    .ok (.anaconda channel username password)
  else if strStartsWith uri "ftp://" then
    .ok (.ftpConn uri channel username password false)
  else if strStartsWith uri "ftps://" then
    .ok (.ftpConn uri channel username password true)
  else .error (.unsupportedURI uri)

/-- The body of `connect` (common.py lines 241-263) acting on the working
dict (the copy made at line 242): pop the optional keys `user`, `pass`,
`regex`; pop the required keys `pkg_name`, `uri`, `channel` in that order,
failing on the first that is absent; reject leftover keys; then dispatch on
the URI.  Returns the outcome together with the working dict at the point
of return. -/
def connectCore (source : Config) :
    Except ConnectErr ConnectResult × Config :=
  let username := (dictLookup "user" source).getD ""
  let s1 := dictRemove "user" source
  let password := (dictLookup "pass" s1).getD ""
  let s2 := dictRemove "pass" s1
  let s3 := dictRemove "regex" s2
  match dictLookup "pkg_name" s3 with
  | none => (.error (.missingKey "pkg_name"), s3)
  | some _ =>
    let s4 := dictRemove "pkg_name" s3
    match dictLookup "uri" s4 with
    | none => (.error (.missingKey "uri"), s4)
    | some uri =>
      let s5 := dictRemove "uri" s4
      match dictLookup "channel" s5 with
      | none => (.error (.missingKey "channel"), s5)
      | some channel =>
        let s6 := dictRemove "channel" s5
        if s6.isEmpty then (connectDispatch uri channel username password, s6)
        else (.error (.unknownKeys (s6.map Prod.fst)), s6)

/-- `connect(source)` (common.py lines 241-263). -/
def connect (source : Config) : Except ConnectErr ConnectResult :=
  (connectCore source).1

/-- A `connect` call as the caller observes it: the returned value and the
caller's own mapping after the call. -/
structure ConnectCall where
  result : Except ConnectErr ConnectResult
  callerConfig : Config

/-- `connect` including the copy at common.py line 242
(`source = source.copy()`): every pop in `connectCore` mutates the copied
working dict, so the caller's mapping is handed back untouched. -/
def connectWithCaller (source : Config) : ConnectCall :=
  { result := (connectCore source).1, callerConfig := source }

/-- A Python value as handled by the version codec. -/
inductive PyVal where
  | none
  | bool (b : Bool)
  | int (n : Int)
  | str (s : String)
  | list (l : List PyVal)
  | dict (d : List (String × PyVal))

/-- Whether a value is exactly a `str` (Python `type(x) is str`). -/
def PyVal.isStr : PyVal → Bool
  | .str _ => true
  | _ => false

/-- Errors of the version codec: the ShapeError raised on a violated
version-spec shape (carrying the offending value), and the `TypeError`
Python raises when subscripting a non-dict value. -/
inductive PyErr where
  | shapeError (offending : PyVal)
  | typeError

/-- `to_version` (common.py lines 266-270): fail unless the input is
exactly a string, else return `{'version': s}`. -/
def to_version (v : PyVal) : Except PyErr PyVal :=
  match v with
  | .str s => .ok (.dict [("version", .str s)])
  | other => .error (.shapeError other)

/-- `from_version` (common.py lines 273-280): `None` passes through;
a dict without a `'version'` key fails with the shape error; subscripting
any other value is a `TypeError`. -/
def from_version (v : PyVal) : Except PyErr PyVal :=
  match v with
  | .none => .ok .none
  | .dict d =>
    match dictLookup "version" d with
    | some x => .ok x
    | Option.none => .error (.shapeError (.dict d))
  | _ => .error .typeError

/-- Classifier: is an event the binary-package STOR of common.py line 232? -/
def isStorBinary : FtpEvent → Bool
  | .storBinary _ _ => true
  | _ => false

/-- Classifier: is an event the repodata-index STOR of common.py line 235? -/
def isStorRepodata : FtpEvent → Bool
  | .storRepodata _ _ => true
  | _ => false

/-- Classifier: is an event a MKD attempt? -/
def isMkdEv : FtpEvent → Bool
  | .mkd _ => true
  | _ => false

/-- Classifier: is an event a sleep? -/
def isSleepEv : FtpEvent → Bool
  | .sleep _ => true
  | _ => false

/-- The path of a repodata-index STOR event, if any. -/
def storRepodataPath : FtpEvent → Option String
  | .storRepodata p _ => some p
  | _ => none

/-- The record a loaded store holds for a subdir: the fetched repodata when
present, the empty default otherwise. -/
def fetchedOrEmpty (fetch : String → FetchResult) (s : String) : Repodata :=
  match fetch (repodataPath s) with
  | .ok rd => rd
  | _ => emptyRepodata

/-- Whether the current remote state already has at least one package
under subdir `s`. -/
def remoteNonempty (remote : String → FetchResult) (s : String) : Bool :=
  match remote (repodataPath s) with
  | .ok rd => !rd.packages.isEmpty
  | _ => false

/-- Whether subdir `s` receives at least one local entry matching the
name/version filter (is "touched by the delta"). -/
def deltaTouched (data : ChannelData) (name version : Option String)
    (s : String) : Bool :=
  (data.iter_entries name version).any (fun e => e.2.subdir == s)

/-- Whether a store currently has at least one package under subdir `s`. -/
def subdirNonempty (cd : ChannelData) (s : String) : Bool :=
  match dictLookup s cd.repodata with
  | some rd => !rd.packages.isEmpty
  | none => false

/-- A lock-directory world that is always free: the first MKD succeeds. -/
def free0 : Nat → Bool := fun _ => true

/-- A lock-directory world in which the lock directory never disappears. -/
def freeNever : Nat → Bool := fun _ => false

/-- A local package entry under `noarch`. -/
def spec_foo : PackageSpec := ⟨"foo", "1.0", "noarch", []⟩

/-- A package entry already present remotely under `linux-64`. -/
def spec_bar : PackageSpec := ⟨"bar", "2.0", "linux-64", []⟩

/-- A local store at root `/local` holding exactly one `noarch` package. -/
def data0 : ChannelData :=
  ⟨some "/local",
   [("noarch", ⟨[], [("foo-1.0-0.tar.bz2", spec_foo)]⟩),
    ("osx-64", emptyRepodata), ("linux-64", emptyRepodata),
    ("linux-32", emptyRepodata), ("win-64", emptyRepodata),
    ("win-32", emptyRepodata)]⟩

/-- A remote with no repodata anywhere (a fresh channel). -/
def remote0 : String → FetchResult := fun _ => .notFound

/-- A remote that already publishes one `linux-64` package and nothing
else. -/
def remote1 : String → FetchResult := fun p =>
  if p = "linux-64/repodata.json" then .ok ⟨[], [("bar-2.0-0.tar.bz2", spec_bar)]⟩
  else .notFound

/-- Local file contents for the witness runs. -/
def localFile0 : String → List Nat := fun _ => [1, 2, 3]

/-- The merged `noarch` record produced by the `remote0`/`data0` run. -/
def rdNoarchMerged : Repodata := ⟨[], [("foo-1.0-0.tar.bz2", spec_foo)]⟩

/-- A configuration with all required keys, a registry URI, and one
unrecognized key. -/
def cfgBadKey : Config :=
  [("pkg_name", "p"), ("uri", "https://conda.anaconda.org"),
   ("channel", "c"), ("bogus", "x")]

/-- A well-formed configuration with an `ftp://` URI. -/
def cfgFtp : Config :=
  [("pkg_name", "p"), ("uri", "ftp://example.com"), ("channel", "c")]

/-- A configuration missing the required `uri` key. -/
def cfgMissingUri : Config := [("pkg_name", "p"), ("channel", "c")]

/-- A configuration with all required keys plus an unrecognized one. -/
def cfgJunk : Config :=
  [("pkg_name", "p"), ("uri", "u"), ("channel", "c"), ("junk", "j")]

/-- A source with real repodata content for `noarch` only. -/
def fetch0 : String → FetchResult := fun p =>
  if p = "noarch/repodata.json" then .ok rdNoarchMerged else .notFound

/-- The store a fault-free load produces: one record per supported subdir,
the fetched repodata where present and the empty default otherwise. -/
def loadedStore (remote : String → FetchResult) : ChannelData :=
  ⟨none, ChannelData.SUBDIRS.map (fun s => (s, fetchedOrEmpty remote s))⟩

theorem dictLookup_dictRemove_ne {α : Type} {k k' : String} (h : k ≠ k')
    (d : List (String × α)) :
    dictLookup k (dictRemove k' d) = dictLookup k d := by
  induction d with
  | nil => rfl
  | cons p rest ih =>
    by_cases hp : p.1 = k'
    · have hpk : ¬ p.1 = k := by
        rw [hp]; exact fun hh => h hh.symm
      have h1 : dictRemove k' (p :: rest) = dictRemove k' rest := by
        simp [dictRemove, List.filter_cons, hp]
      rw [h1, ih]
      simp [dictLookup, hpk]
    · have h1 : dictRemove k' (p :: rest) = p :: dictRemove k' rest := by
        simp [dictRemove, List.filter_cons, hp]
      rw [h1]
      by_cases hk : p.1 = k
      · simp [dictLookup, hk]
      · simp [dictLookup, hk, ih]

theorem dictLookup_dictRemove_self {α : Type} (k : String)
    (d : List (String × α)) :
    dictLookup k (dictRemove k d) = none := by
  induction d with
  | nil => rfl
  | cons p rest ih =>
    by_cases hp : p.1 = k
    · have h1 : dictRemove k (p :: rest) = dictRemove k rest := by
        simp [dictRemove, List.filter_cons, hp]
      rw [h1]; exact ih
    · have h1 : dictRemove k (p :: rest) = p :: dictRemove k rest := by
        simp [dictRemove, List.filter_cons, hp]
      rw [h1]; simp [dictLookup, hp, ih]

theorem dictLookup_none_dictRemove {α : Type} {k k' : String}
    {d : List (String × α)} (h : dictLookup k d = none) :
    dictLookup k (dictRemove k' d) = none := by
  by_cases hk : k = k'
  · subst hk; exact dictLookup_dictRemove_self k d
  · rw [dictLookup_dictRemove_ne hk]; exact h

theorem mem_dictRemove {α : Type} {k : String} {d : List (String × α)}
    {p : String × α} :
    p ∈ dictRemove k d ↔ p ∈ d ∧ p.1 ≠ k := by
  simp [dictRemove, List.mem_filter]

/-- C9: for every string `s`, `from_version (to_version s) = s`; `to_version`
fails with the shape error on any non-string input; `from_version None`
returns `None`; and `from_version` of a record without a `'version'` key
(such as the empty record) fails with the shape error. -/
theorem C9_version_codec_roundtrip :
    (∀ s : String,
      (to_version (PyVal.str s)).bind from_version = .ok (PyVal.str s)) ∧
    (∀ v : PyVal, v.isStr = false →
      to_version v = .error (.shapeError v)) ∧
    from_version PyVal.none = .ok PyVal.none ∧
    (∀ d : List (String × PyVal), dictLookup "version" d = Option.none →
      from_version (PyVal.dict d) = .error (.shapeError (PyVal.dict d))) := by
  refine ⟨?_, ?_, rfl, ?_⟩
  · intro s
    simp [to_version, from_version, Except.bind, dictLookup]
  · intro v hv
    cases v <;> simp_all [to_version, PyVal.isStr]
  · intro d h
    simp [from_version, h]

theorem C9_witness :
    (to_version (PyVal.str "1.0")).bind from_version = .ok (PyVal.str "1.0") ∧
    to_version (PyVal.int 3) = .error (.shapeError (PyVal.int 3)) ∧
    from_version (PyVal.dict []) = .error (.shapeError (PyVal.dict [])) :=
  ⟨C9_version_codec_roundtrip.1 "1.0",
   C9_version_codec_roundtrip.2.1 (PyVal.int 3) rfl,
   C9_version_codec_roundtrip.2.2.2 [] rfl⟩

/-- C10: the caller's mapping is handed back unchanged by `connect` in every
case (the pops act on the copy made at common.py line 242), even though the
optional keys really are removed from the working dict on every path. -/
theorem C10_caller_config_unchanged (cfg : Config) :
    (connectWithCaller cfg).callerConfig = cfg ∧
    (connectWithCaller cfg).result = connect cfg ∧
    (∀ k, k = "user" ∨ k = "pass" ∨ k = "regex" →
      dictLookup k (connectCore cfg).2 = none) := by
  refine ⟨rfl, rfl, ?_⟩
  intro k hk
  have base :
      dictLookup k
        (dictRemove "regex" (dictRemove "pass" (dictRemove "user" cfg))) =
        none := by
    rcases hk with h | h | h <;> subst h
    · exact dictLookup_none_dictRemove
        (dictLookup_none_dictRemove (dictLookup_dictRemove_self _ _))
    · exact dictLookup_none_dictRemove (dictLookup_dictRemove_self _ _)
    · exact dictLookup_dictRemove_self _ _
  simp only [connectCore]
  split
  · exact base
  · split
    · exact dictLookup_none_dictRemove base
    · split
      · exact dictLookup_none_dictRemove (dictLookup_none_dictRemove base)
      · split
        · exact dictLookup_none_dictRemove
            (dictLookup_none_dictRemove (dictLookup_none_dictRemove base))
        · exact dictLookup_none_dictRemove
            (dictLookup_none_dictRemove (dictLookup_none_dictRemove base))

theorem C10_witness :
    (connectWithCaller [("user", "u"), ("pkg_name", "p")]).callerConfig =
      [("user", "u"), ("pkg_name", "p")] ∧
    dictLookup "user"
      (connectCore [("user", "u"), ("pkg_name", "p")]).2 = none :=
  ⟨(C10_caller_config_unchanged [("user", "u"), ("pkg_name", "p")]).1,
   (C10_caller_config_unchanged [("user", "u"), ("pkg_name", "p")]).2.2
     "user" (Or.inl rfl)⟩

theorem lookup_chain_pkg (cfg : Config) :
    dictLookup "pkg_name"
      (dictRemove "regex" (dictRemove "pass" (dictRemove "user" cfg))) =
      dictLookup "pkg_name" cfg := by
  rw [dictLookup_dictRemove_ne (by decide), dictLookup_dictRemove_ne (by decide),
    dictLookup_dictRemove_ne (by decide)]

theorem lookup_chain_uri (cfg : Config) :
    dictLookup "uri" (dictRemove "pkg_name"
      (dictRemove "regex" (dictRemove "pass" (dictRemove "user" cfg)))) =
      dictLookup "uri" cfg := by
  rw [dictLookup_dictRemove_ne (by decide), dictLookup_dictRemove_ne (by decide),
    dictLookup_dictRemove_ne (by decide), dictLookup_dictRemove_ne (by decide)]

theorem lookup_chain_channel (cfg : Config) :
    dictLookup "channel" (dictRemove "uri" (dictRemove "pkg_name"
      (dictRemove "regex" (dictRemove "pass" (dictRemove "user" cfg))))) =
      dictLookup "channel" cfg := by
  rw [dictLookup_dictRemove_ne (by decide), dictLookup_dictRemove_ne (by decide),
    dictLookup_dictRemove_ne (by decide), dictLookup_dictRemove_ne (by decide),
    dictLookup_dictRemove_ne (by decide)]

theorem lookup_chain_pass (cfg : Config) :
    dictLookup "pass" (dictRemove "user" cfg) = dictLookup "pass" cfg :=
  dictLookup_dictRemove_ne (by decide) cfg

theorem mem_leftover_iff (cfg : Config) (p : String × String) :
    p ∈ dictRemove "channel" (dictRemove "uri" (dictRemove "pkg_name"
        (dictRemove "regex" (dictRemove "pass" (dictRemove "user" cfg))))) ↔
      p ∈ cfg ∧ ¬ p.1 ∈ knownKeys := by
  simp only [mem_dictRemove, knownKeys, List.mem_cons, List.mem_singleton,
    List.not_mem_nil, ne_eq]
  tauto

theorem ftps_not_ftp {u : String} (h : strStartsWith u "ftps://" = true) :
    strStartsWith u "ftp://" = false := by
  unfold strStartsWith at h ⊢
  rw [List.isPrefixOf_iff_prefix] at h
  obtain ⟨t, ht⟩ := h
  rw [← ht]
  rfl

/-- C5 (counterexample to the claim as stated): a config containing all
required keys, whose `uri` exactly equals the registry endpoint, on which
`connect` nevertheless fails (with the unknown-keys ConfigError) because of
an extra unrecognized key, instead of returning a registry connection. -/
theorem C5_counterexample_extra_key :
    dictLookup "pkg_name" cfgBadKey = some "p" ∧
    dictLookup "uri" cfgBadKey = some AnacondaConnection.URI ∧
    dictLookup "channel" cfgBadKey = some "c" ∧
    connect cfgBadKey = .error (.unknownKeys ["bogus"]) :=
  ⟨rfl, rfl, rfl, rfl⟩

/-- C5 (amended): for every config containing all required keys and no keys
outside the recognized set, `connect` dispatches on the URI: exact registry
match gives the registry variant; an `ftp://` (resp. `ftps://`) URI gives
the file-transfer variant with TLS flag false (resp. true); any other URI
fails with the unsupported-URI error. -/
theorem C5_connect_dispatch (cfg : Config) (uri : String)
    (hp : (dictLookup "pkg_name" cfg).isSome = true)
    (hu : dictLookup "uri" cfg = some uri)
    (hc : (dictLookup "channel" cfg).isSome = true)
    (hclean : ∀ k, k ∈ cfg.map Prod.fst → k ∈ knownKeys) :
    (uri = AnacondaConnection.URI →
      connect cfg = .ok (.anaconda ((dictLookup "channel" cfg).getD "")
        ((dictLookup "user" cfg).getD "") ((dictLookup "pass" cfg).getD ""))) ∧
    (strStartsWith uri "ftp://" = true →
      connect cfg = .ok (.ftpConn uri ((dictLookup "channel" cfg).getD "")
        ((dictLookup "user" cfg).getD "") ((dictLookup "pass" cfg).getD "")
        false)) ∧
    (strStartsWith uri "ftps://" = true →
      connect cfg = .ok (.ftpConn uri ((dictLookup "channel" cfg).getD "")
        ((dictLookup "user" cfg).getD "") ((dictLookup "pass" cfg).getD "")
        true)) ∧
    (uri ≠ AnacondaConnection.URI → strStartsWith uri "ftp://" = false →
      strStartsWith uri "ftps://" = false →
      connect cfg = .error (.unsupportedURI uri)) := by
  rcases hop : dictLookup "pkg_name" cfg with _ | vp
  · rw [hop] at hp; simp at hp
  rcases hoc : dictLookup "channel" cfg with _ | vc
  · rw [hoc] at hc; simp at hc
  have hnil : dictRemove "channel" (dictRemove "uri" (dictRemove "pkg_name"
      (dictRemove "regex" (dictRemove "pass" (dictRemove "user" cfg))))) =
      [] := by
    rw [List.eq_nil_iff_forall_not_mem]
    intro p hpmem
    rw [mem_leftover_iff] at hpmem
    exact hpmem.2 (hclean p.1 (List.mem_map_of_mem Prod.fst hpmem.1))
  have hred : connect cfg = connectDispatch uri vc
      ((dictLookup "user" cfg).getD "")
      ((dictLookup "pass" (dictRemove "user" cfg)).getD "") := by
    simp only [connect, connectCore, lookup_chain_pkg, lookup_chain_uri,
      lookup_chain_channel, hop, hu, hoc, hnil, List.isEmpty_nil, if_true]
  rw [lookup_chain_pass] at hred
  refine ⟨?_, ?_, ?_, ?_⟩
  · intro h
    rw [hred]
    simp [connectDispatch, h, Option.getD]
  · intro h
    have hne : uri ≠ AnacondaConnection.URI := by
      intro he; rw [he] at h
      exact absurd h (by decide)
    rw [hred]
    simp [connectDispatch, hne, h, Option.getD]
  · intro h
    have hne : uri ≠ AnacondaConnection.URI := by
      intro he; rw [he] at h
      exact absurd h (by decide)
    have hftp : strStartsWith uri "ftp://" = false := ftps_not_ftp h
    rw [hred]
    simp [connectDispatch, hne, hftp, h, Option.getD]
  · intro h1 h2 h3
    rw [hred]
    simp [connectDispatch, h1, h2, h3]

theorem C5_witness :
    connect cfgFtp = .ok (.ftpConn "ftp://example.com" "c" "" "" false) :=
  (C5_connect_dispatch cfgFtp "ftp://example.com" rfl rfl rfl
    (by decide)).2.1 rfl

/-- C6: a config missing a required key makes `connect` fail with the
missing-key ConfigError naming a missing required key (the first of
`pkg_name`, `uri`, `channel` in pop order); a config with all required keys
plus unrecognized ones makes `connect` fail with the unknown-keys
ConfigError reporting exactly the keys outside the recognized set. -/
theorem C6_connect_config_errors (cfg : Config) :
    ((dictLookup "pkg_name" cfg = none ∨ dictLookup "uri" cfg = none ∨
        dictLookup "channel" cfg = none) →
      ∃ k, (k = "pkg_name" ∨ k = "uri" ∨ k = "channel") ∧
        dictLookup k cfg = none ∧ connect cfg = .error (.missingKey k)) ∧
    ((dictLookup "pkg_name" cfg).isSome = true →
      (dictLookup "uri" cfg).isSome = true →
      (dictLookup "channel" cfg).isSome = true →
      (∃ k0, k0 ∈ cfg.map Prod.fst ∧ k0 ∉ knownKeys) →
      ∃ ks, connect cfg = .error (.unknownKeys ks) ∧
        ∀ k, k ∈ ks ↔ (k ∈ cfg.map Prod.fst ∧ k ∉ knownKeys)) := by
  constructor
  · intro hmiss
    by_cases hpk : dictLookup "pkg_name" cfg = none
    · refine ⟨"pkg_name", Or.inl rfl, hpk, ?_⟩
      simp only [connect, connectCore, lookup_chain_pkg, hpk]
    · rcases hop : dictLookup "pkg_name" cfg with _ | vp
      · exact absurd hop hpk
      by_cases huri : dictLookup "uri" cfg = none
      · refine ⟨"uri", Or.inr (Or.inl rfl), huri, ?_⟩
        simp only [connect, connectCore, lookup_chain_pkg, lookup_chain_uri,
          hop, huri]
      · rcases hou : dictLookup "uri" cfg with _ | vu
        · exact absurd hou huri
        have hch : dictLookup "channel" cfg = none := by
          rcases hmiss with h | h | h
          · exact absurd h hpk
          · exact absurd h huri
          · exact h
        refine ⟨"channel", Or.inr (Or.inr rfl), hch, ?_⟩
        simp only [connect, connectCore, lookup_chain_pkg, lookup_chain_uri,
          lookup_chain_channel, hop, hou, hch]
  · intro hp hu hc hjunk
    rcases hop : dictLookup "pkg_name" cfg with _ | vp
    · rw [hop] at hp; simp at hp
    rcases hou : dictLookup "uri" cfg with _ | vu
    · rw [hou] at hu; simp at hu
    rcases hoc : dictLookup "channel" cfg with _ | vc
    · rw [hoc] at hc; simp at hc
    have hne : ¬ (dictRemove "channel" (dictRemove "uri" (dictRemove "pkg_name"
        (dictRemove "regex" (dictRemove "pass" (dictRemove "user"
          cfg)))))).isEmpty = true := by
      rw [List.isEmpty_iff]
      obtain ⟨k0, hk0m, hk0u⟩ := hjunk
      rw [List.mem_map] at hk0m
      obtain ⟨p, hpm, hpk0⟩ := hk0m
      intro hnil
      have : p ∈ ([] : Config) := by
        rw [← hnil, mem_leftover_iff]
        exact ⟨hpm, by rw [hpk0]; exact hk0u⟩
      simp at this
    refine ⟨(dictRemove "channel" (dictRemove "uri" (dictRemove "pkg_name"
      (dictRemove "regex" (dictRemove "pass" (dictRemove "user"
        cfg)))))).map Prod.fst, ?_, ?_⟩
    · simp only [connect, connectCore, lookup_chain_pkg, lookup_chain_uri,
        lookup_chain_channel, hop, hou, hoc, hne, if_false]
      simp
    · intro k
      constructor
      · intro hk
        rw [List.mem_map] at hk
        obtain ⟨p, hpm, hpk⟩ := hk
        rw [mem_leftover_iff] at hpm
        subst hpk
        exact ⟨List.mem_map_of_mem Prod.fst hpm.1, hpm.2⟩
      · intro ⟨hk1, hk2⟩
        rw [List.mem_map] at hk1 ⊢
        obtain ⟨p, hpm, hpk⟩ := hk1
        refine ⟨p, ?_, hpk⟩
        rw [mem_leftover_iff]
        exact ⟨hpm, by rw [hpk]; exact hk2⟩

theorem C6_witness :
    (∃ k, (k = "pkg_name" ∨ k = "uri" ∨ k = "channel") ∧
      dictLookup k cfgMissingUri = none ∧
      connect cfgMissingUri = .error (.missingKey k)) ∧
    (∃ ks, connect cfgJunk = .error (.unknownKeys ks) ∧
      ∀ k, k ∈ ks ↔ (k ∈ cfgJunk.map Prod.fst ∧ k ∉ knownKeys)) :=
  ⟨(C6_connect_config_errors cfgMissingUri).1 (Or.inr (Or.inl rfl)),
   (C6_connect_config_errors cfgJunk).2 rfl rfl rfl
     ⟨"junk", by decide, by decide⟩⟩

theorem lockGo_never (free : Nat → Bool) (h : ∀ n, free n = false) :
    ∀ m k, k + m = 60 →
      lockGo free k = (.error .lockTimeout,
        (List.replicate (m + 1) [FtpEvent.mkd lockDir, FtpEvent.sleep 5]).flatten) := by
  intro m
  induction m with
  | zero =>
    intro k hk
    have hk60 : k = 60 := by omega
    subst hk60
    rw [lockGo]
    simp [h 60]
  | succ m ih =>
    intro k hk
    rw [lockGo]
    have hlt : ¬ (5 * (k + 1) > 5 * 60) := by omega
    rw [ih (k + 1) (by omega)]
    simp [h k, hlt, List.replicate_succ]

/-- C3: in a run in which the lock directory never disappears, acquisition
fails with the lock-timeout error; every event of the run is a (failed)
creation attempt of the lock directory or a fixed 5-second sleep (so no
remote write other than the MKD attempts happens); and the run makes 61
attempts, accumulating 305 seconds of waiting, which exceeds the
five-minute (300-second) ceiling. -/
theorem C3_lock_timeout (free : Nat → Bool) (h : ∀ n, free n = false) :
    (lockAcquire free).1 = .error .lockTimeout ∧
    (∀ e ∈ (lockAcquire free).2,
      e = FtpEvent.mkd lockDir ∨ e = FtpEvent.sleep 5) ∧
    ((lockAcquire free).2.filter isSleepEv).length * 5 = 305 ∧
    ((lockAcquire free).2.filter isSleepEv).length * 5 > 5 * 60 ∧
    ((lockAcquire free).2.filter isMkdEv).length = 61 := by
  have hrun : lockAcquire free = (.error .lockTimeout,
      (List.replicate 61 [FtpEvent.mkd lockDir, FtpEvent.sleep 5]).flatten) := by
    unfold lockAcquire
    exact lockGo_never free h 60 0 rfl
  rw [hrun]
  refine ⟨rfl, ?_, ?_, ?_, ?_⟩ <;> decide

theorem C3_witness :
    (lockAcquire freeNever).1 = .error .lockTimeout ∧
    ((lockAcquire freeNever).2.filter isMkdEv).length = 61 :=
  ⟨(C3_lock_timeout freeNever (fun _ => rfl)).1,
   (C3_lock_timeout freeNever (fun _ => rfl)).2.2.2.2⟩

theorem lockAcquire_free0 :
    lockAcquire free0 = (.ok 0, [FtpEvent.mkd lockDir]) := by
  unfold lockAcquire
  rw [lockGo]
  simp [free0]

/-- C4: whenever the lock directory was successfully created, `ftp_lock`
removes it right after the critical section in every case: the run's trace
is the acquisition events, then the body's events, then the RMD of the lock
directory, and it ends with that RMD whether the body returned normally or
raised (the body's outcome, error or not, is propagated unchanged). -/
theorem C4_lock_released (α : Type) (free : Nat → Bool)
    (body : Except UploadErr α × List FtpEvent) (k : Nat)
    (hk : (lockAcquire free).1 = .ok k) :
    (ftp_lock_run free body).1 = body.1 ∧
    (ftp_lock_run free body).2 =
      (lockAcquire free).2 ++ body.2 ++ [FtpEvent.rmd lockDir] ∧
    (ftp_lock_run free body).2.getLast? = some (FtpEvent.rmd lockDir) := by
  rcases hL : lockAcquire free with ⟨res, levs⟩
  have hres : res = .ok k := by rw [hL] at hk; exact hk
  subst hres
  unfold ftp_lock_run
  rw [hL]
  refine ⟨rfl, rfl, ?_⟩
  show ((levs ++ body.2) ++ [FtpEvent.rmd lockDir]).getLast? =
    some (FtpEvent.rmd lockDir)
  rw [List.getLast?_concat]

theorem C4_witness :
    (ftp_lock_run free0
      ((.error .noRoot : Except UploadErr Unit), [FtpEvent.retr "x"])).1 =
      .error .noRoot ∧
    (ftp_lock_run free0
      ((.error .noRoot : Except UploadErr Unit),
        [FtpEvent.retr "x"])).2.getLast? = some (FtpEvent.rmd lockDir) :=
  ⟨(C4_lock_released Unit free0 ((.error .noRoot), [FtpEvent.retr "x"]) 0
      (by rw [lockAcquire_free0])).1,
   (C4_lock_released Unit free0 ((.error .noRoot), [FtpEvent.retr "x"]) 0
      (by rw [lockAcquire_free0])).2.2⟩

theorem lockGo_events (free : Nat → Bool) :
    ∀ n k, 61 - k = n → ∀ e ∈ (lockGo free k).2,
      e = FtpEvent.mkd lockDir ∨ e = FtpEvent.sleep 5 := by
  intro n
  induction n with
  | zero =>
    intro k hk e he
    rw [lockGo] at he
    by_cases hf : free k
    · simp [hf] at he
      exact Or.inl he
    · have hgt : 5 * (k + 1) > 5 * 60 := by omega
      simp [hf, hgt] at he
      rcases he with he | he
      · exact Or.inl he
      · exact Or.inr he
  | succ n ih =>
    intro k hk e he
    rw [lockGo] at he
    by_cases hf : free k
    · simp [hf] at he
      exact Or.inl he
    · by_cases hgt : 5 * (k + 1) > 5 * 60
      · simp [hf, hgt] at he
        rcases he with he | he
        · exact Or.inl he
        · exact Or.inr he
      · simp [hf, hgt] at he
        rcases he with he | he | he
        · exact Or.inl he
        · exact Or.inr he
        · exact ih (k + 1) (by omega) e he

theorem lockAcquire_events (free : Nat → Bool) :
    ∀ e ∈ (lockAcquire free).2,
      e = FtpEvent.mkd lockDir ∨ e = FtpEvent.sleep 5 :=
  lockGo_events free 61 0 rfl

theorem loadGo_no_fault (fetch : String → FetchResult) (l : List String)
    (h : ∀ s ∈ l, (fetch (repodataPath s)).isFault = false) :
    loadGo fetch l =
      (.ok (l.map (fun s => (s, fetchedOrEmpty fetch s))),
       l.map (fun s => FtpEvent.retr (repodataPath s))) := by
  induction l with
  | nil => rfl
  | cons s rest ih =>
    have hs := h s (List.mem_cons_self s rest)
    have hrest : ∀ t ∈ rest, (fetch (repodataPath t)).isFault = false :=
      fun t ht => h t (List.mem_cons_of_mem s ht)
    rcases hf : fetch (repodataPath s) with rd | _ | e
    · simp [loadGo, hf, ih hrest, fetchedOrEmpty, Except.map]
    · simp [loadGo, hf, ih hrest, fetchedOrEmpty, Except.map]
    · rw [hf] at hs; simp [FetchResult.isFault] at hs

theorem loadGo_fault (fetch : String → FetchResult) (l : List String) :
    (∃ s ∈ l, (fetch (repodataPath s)).isFault = true) →
    ∃ e, (loadGo fetch l).1 = .error e ∧
      ∃ s ∈ l, fetch (repodataPath s) = .fault e := by
  induction l with
  | nil => intro h; simp at h
  | cons s rest ih =>
    intro h
    rcases hf : fetch (repodataPath s) with rd | _ | e
    · have hr : ∃ t ∈ rest, (fetch (repodataPath t)).isFault = true := by
        rcases h with ⟨t, ht, hft⟩
        rcases List.mem_cons.mp ht with rfl | htr
        · rw [hf] at hft; simp [FetchResult.isFault] at hft
        · exact ⟨t, htr, hft⟩
      obtain ⟨e, he, t, htr, hft⟩ := ih hr
      refine ⟨e, ?_, t, List.mem_cons_of_mem s htr, hft⟩
      simp [loadGo, hf, he, Except.map]
    · have hr : ∃ t ∈ rest, (fetch (repodataPath t)).isFault = true := by
        rcases h with ⟨t, ht, hft⟩
        rcases List.mem_cons.mp ht with rfl | htr
        · rw [hf] at hft; simp [FetchResult.isFault] at hft
        · exact ⟨t, htr, hft⟩
      obtain ⟨e, he, t, htr, hft⟩ := ih hr
      refine ⟨e, ?_, t, List.mem_cons_of_mem s htr, hft⟩
      simp [loadGo, hf, he, Except.map]
    · exact ⟨e, by simp [loadGo, hf], s, List.mem_cons_self s rest, hf⟩

theorem loadGo_events (fetch : String → FetchResult) (l : List String) :
    ∀ e ∈ (loadGo fetch l).2, ∃ p, e = FtpEvent.retr p := by
  induction l with
  | nil => intro e he; simp [loadGo] at he
  | cons s rest ih =>
    intro e he
    rcases hf : fetch (repodataPath s) with rd | _ | er <;>
      simp only [loadGo, hf, List.mem_cons, List.mem_singleton] at he
    · rcases he with he | he
      · exact ⟨_, he⟩
      · exact ih e he
    · rcases he with he | he
      · exact ⟨_, he⟩
      · exact ih e he
    · rcases he with he | he
      · exact ⟨_, he⟩
      · simp at he

theorem dictLookup_map_graph {α : Type} (f : String → α) (l : List String)
    (s : String) (hs : s ∈ l) :
    dictLookup s (l.map (fun t => (t, f t))) = some (f s) := by
  induction l with
  | nil => simp at hs
  | cons t rest ih =>
    by_cases hts : t = s
    · subst hts; simp [dictLookup]
    · have hsr : s ∈ rest := by
        rcases List.mem_cons.mp hs with h | h
        · exact absurd h.symm hts
        · exact h
      simp [dictLookup, hts]
      exact ih hsr

/-- C7: loading a ChannelDataStore fetches `<subdir>/repodata.json` for each
of the six supported subdirs; when no fetch hits a hard fault the store is
built with exactly the six subdir keys, a subdir whose fetch raised the
translated not-found condition getting the empty default record and a
subdir whose repodata exists getting its parsed content unchanged; if some
fetch hits any other transport or parse fault, construction aborts with
that fault.  Moreover `FTPConnection.download` is what produces the
translated not-found condition from a permission-denied retrieve. -/
theorem C7_load_defaults_and_faults (fetch : String → FetchResult) :
    ((∀ s ∈ ChannelData.SUBDIRS, (fetch (repodataPath s)).isFault = false) →
      ∃ cd, (ChannelData.load fetch).1 = .ok cd ∧
        cd.repodata.map Prod.fst = ChannelData.SUBDIRS ∧
        (∀ s ∈ ChannelData.SUBDIRS,
          (fetch (repodataPath s) = .notFound →
            dictLookup s cd.repodata = some emptyRepodata) ∧
          (∀ rd, fetch (repodataPath s) = .ok rd →
            dictLookup s cd.repodata = some rd))) ∧
    ((∃ s ∈ ChannelData.SUBDIRS, (fetch (repodataPath s)).isFault = true) →
      ∃ e, (ChannelData.load fetch).1 = .error e ∧
        ∃ s ∈ ChannelData.SUBDIRS, fetch (repodataPath s) = .fault e) ∧
    (∀ retr parse path, retr path = .permError →
      ftpFetch retr parse path = .notFound) := by
  refine ⟨?_, ?_, ?_⟩
  · intro h
    refine ⟨⟨none,
      ChannelData.SUBDIRS.map (fun s => (s, fetchedOrEmpty fetch s))⟩,
      ?_, ?_, ?_⟩
    · simp [ChannelData.load, loadGo_no_fault fetch _ h, Except.map]
    · show List.map Prod.fst
        (ChannelData.SUBDIRS.map (fun s => (s, fetchedOrEmpty fetch s))) =
        ChannelData.SUBDIRS
      rw [List.map_map]
      rw [show (Prod.fst ∘ fun s => (s, fetchedOrEmpty fetch s)) =
        @id String from rfl, List.map_id]
    · intro s hs
      constructor
      · intro hnf
        rw [dictLookup_map_graph _ _ _ hs]
        simp [fetchedOrEmpty, hnf]
      · intro rd hrd
        rw [dictLookup_map_graph _ _ _ hs]
        simp [fetchedOrEmpty, hrd]
  · intro h
    obtain ⟨e, he, s, hs, hf⟩ := loadGo_fault fetch ChannelData.SUBDIRS h
    refine ⟨e, ?_, s, hs, hf⟩
    simp [ChannelData.load, he, Except.map]
  · intro retr parse path h
    simp [ftpFetch, FTPConnection.download, h]

theorem C7_witness :
    ∃ cd, (ChannelData.load fetch0).1 = .ok cd ∧
      dictLookup "noarch" cd.repodata = some rdNoarchMerged ∧
      dictLookup "osx-64" cd.repodata = some emptyRepodata := by
  obtain ⟨cd, h1, _, h3⟩ :=
    (C7_load_defaults_and_faults fetch0).1 (by decide)
  refine ⟨cd, h1, ?_, ?_⟩
  · exact (h3 "noarch" (by decide)).2 rdNoarchMerged rfl
  · exact (h3 "osx-64" (by decide)).1 rfl

/-- C8: the repodata filehandles of a store decompose into one segment per
subdir, in dict order: an empty segment for a subdir whose packages mapping
is empty, and for a subdir with at least one package exactly two entries in
order — the plain index at `<subdir>/repodata.json` followed by the
compressed twin at the same path with the `.bz2` suffix — where
decompressing the compressed bytes reproduces the plain bytes exactly. -/
theorem C8_iter_repodata_segments (cd : ChannelData) :
    ∃ segs : List (List (String × List Nat)),
      cd.iter_repodata_filehandles = segs.flatten ∧
      segs.length = cd.repodata.length ∧
      ∀ p seg, (p, seg) ∈ cd.repodata.zip segs →
        (p.2.packages.isEmpty = true → seg = []) ∧
        (p.2.packages.isEmpty = false →
          ∃ plain zipped,
            seg = [(repodataPath p.1, plain),
                   (repodataPath p.1 ++ ChannelData.ZIP_EXT, zipped)] ∧
            bz2Decompress zipped = plain) := by
  refine ⟨cd.repodata.map (fun q =>
    if q.2.packages.isEmpty then []
    else [(repodataPath q.1, strBytes (serializeRepodata q.2)),
          (repodataPath q.1 ++ ChannelData.ZIP_EXT,
           bz2Compress (strBytes (serializeRepodata q.2)))]), ?_, ?_, ?_⟩
  · rw [ChannelData.iter_repodata_filehandles, List.flatMap_def]
  · simp
  · intro p seg hmem
    have hz : cd.repodata.zip (cd.repodata.map (fun q =>
        if q.2.packages.isEmpty then []
        else [(repodataPath q.1, strBytes (serializeRepodata q.2)),
              (repodataPath q.1 ++ ChannelData.ZIP_EXT,
               bz2Compress (strBytes (serializeRepodata q.2)))])) =
        cd.repodata.map (fun q => (q,
          if q.2.packages.isEmpty then []
          else [(repodataPath q.1, strBytes (serializeRepodata q.2)),
                (repodataPath q.1 ++ ChannelData.ZIP_EXT,
                 bz2Compress (strBytes (serializeRepodata q.2)))])) := by
      have := List.zip_map' (@id (String × Repodata)) (fun q =>
        if q.2.packages.isEmpty then []
        else [(repodataPath q.1, strBytes (serializeRepodata q.2)),
              (repodataPath q.1 ++ ChannelData.ZIP_EXT,
               bz2Compress (strBytes (serializeRepodata q.2)))]) cd.repodata
      simpa using this
    rw [hz, List.mem_map] at hmem
    obtain ⟨q, hq, heq⟩ := hmem
    rw [Prod.mk.injEq] at heq
    obtain ⟨rfl, rfl⟩ := heq
    constructor
    · intro hemp; simp [hemp]
    · intro hne
      refine ⟨strBytes (serializeRepodata q.2),
        bz2Compress (strBytes (serializeRepodata q.2)), by simp [hne], ?_⟩
      simp [bz2Decompress, bz2Compress]

theorem C8_witness :
    ∃ segs : List (List (String × List Nat)),
      data0.iter_repodata_filehandles = segs.flatten ∧
      segs.length = data0.repodata.length ∧
      ∀ p seg, (p, seg) ∈ data0.repodata.zip segs →
        (p.2.packages.isEmpty = true → seg = []) ∧
        (p.2.packages.isEmpty = false →
          ∃ plain zipped,
            seg = [(repodataPath p.1, plain),
                   (repodataPath p.1 ++ ChannelData.ZIP_EXT, zipped)] ∧
            bz2Decompress zipped = plain) :=
  C8_iter_repodata_segments data0

theorem load_events (remote : String → FetchResult) :
    ∀ e ∈ (ChannelData.load remote).2, ∃ p, e = FtpEvent.retr p := by
  intro e he
  exact loadGo_events remote ChannelData.SUBDIRS e
    (by simpa [ChannelData.load] using he)

theorem upload_body_phases (remote : String → FetchResult)
    (localFile : String → List Nat) (data : ChannelData)
    (name version : Option String) :
    ∃ P Q, (upload_body remote localFile data name version).2 = P ++ Q ∧
      (∀ x ∈ P, isStorRepodata x = false) ∧
      (∀ x ∈ Q, isStorBinary x = false) := by
  rcases hL : ChannelData.load remote with ⟨res, devs⟩
  have hdevs : ∀ x ∈ devs, isStorRepodata x = false := by
    intro x hx
    have h := load_events remote x (by rw [hL]; exact hx)
    obtain ⟨p, rfl⟩ := h
    rfl
  cases res with
  | error er =>
    refine ⟨devs, [], ?_, hdevs, by simp⟩
    simp [upload_body, hL]
  | ok nd =>
    rcases hA : addAll nd (data.iter_entries name version) with e | newData
    · refine ⟨devs, [], ?_, hdevs, by simp⟩
      simp [upload_body, hL, hA]
    · rcases hroot : data.root with _ | r
      · rcases hrel : data.iter_paths name version with _ | ⟨rp, rest⟩
        · refine ⟨devs,
            newData.iter_repodata_filehandles.map
              (fun pr => FtpEvent.storRepodata pr.1 pr.2), ?_, hdevs, ?_⟩
          · simp [upload_body, hL, hA, hroot, hrel]
          · intro x hx
            obtain ⟨pr, _, rfl⟩ := List.mem_map.mp hx
            rfl
        · refine ⟨devs ++ [FtpEvent.mkd (dirname rp)], [], ?_, ?_, by simp⟩
          · simp [upload_body, hL, hA, hroot, hrel]
          · intro x hx
            rcases List.mem_append.mp hx with h | h
            · exact hdevs x h
            · rw [List.mem_singleton.mp h]
              rfl
      · refine ⟨devs ++ (data.iter_paths name version).flatMap (fun rp =>
          [FtpEvent.mkd (dirname rp),
           FtpEvent.storBinary rp (localFile ((some r).getD "" ++ "/" ++ rp))]),
          newData.iter_repodata_filehandles.map
            (fun pr => FtpEvent.storRepodata pr.1 pr.2), ?_, ?_, ?_⟩
        · simp [upload_body, hL, hA, hroot]
        · intro x hx
          rcases List.mem_append.mp hx with h | h
          · exact hdevs x h
          · obtain ⟨rp, _, hx2⟩ := List.mem_flatMap.mp h
            rcases List.mem_cons.mp hx2 with rfl | hx3
            · rfl
            · rw [List.mem_singleton.mp hx3]
              rfl
        · intro x hx
          obtain ⟨pr, _, rfl⟩ := List.mem_map.mp hx
          rfl

theorem phase_split (Q : List FtpEvent)
    (hQ : ∀ x ∈ Q, isStorBinary x = false) :
    ∀ P : List FtpEvent, (∀ x ∈ P, isStorRepodata x = false) →
    ∀ l1 e l2, P ++ Q = l1 ++ e :: l2 → isStorBinary e = true →
    ∀ y ∈ l1, isStorRepodata y = false := by
  intro P
  induction P with
  | nil =>
    intro _ l1 e l2 hPQ he y hy
    exfalso
    have heQ : e ∈ Q := by
      rw [List.nil_append] at hPQ
      rw [hPQ]
      exact List.mem_append_right l1 (List.mem_cons_self e l2)
    rw [hQ e heQ] at he
    exact Bool.false_ne_true he
  | cons p P ih =>
    intro hP l1 e l2 hPQ he y hy
    cases l1 with
    | nil => simp at hy
    | cons z l1' =>
      rw [List.cons_append, List.cons_append] at hPQ
      injection hPQ with h1 h2
      rcases List.mem_cons.mp hy with hyz | hy'
      · rw [hyz, ← h1]
        exact hP p (List.mem_cons_self p P)
      · exact ih (fun x hx => hP x (List.mem_cons_of_mem p hx))
          l1' e l2 h2 he y hy'

theorem upload_phases (free : Nat → Bool) (remote : String → FetchResult)
    (localFile : String → List Nat) (data : ChannelData)
    (name version : Option String) :
    ∃ P Q, (FTPConnection.upload_local_data free remote localFile data name
        version).2 = P ++ Q ∧
      (∀ x ∈ P, isStorRepodata x = false) ∧
      (∀ x ∈ Q, isStorBinary x = false) := by
  rcases hL : lockAcquire free with ⟨res, levs⟩
  have hlevs : ∀ x ∈ levs, isStorRepodata x = false := by
    intro x hx
    rcases lockAcquire_events free x (by rw [hL]; exact hx) with h | h <;>
      rw [h] <;> rfl
  cases res with
  | error er =>
    refine ⟨levs, [], ?_, hlevs, by simp⟩
    unfold FTPConnection.upload_local_data ftp_lock_run
    rw [hL]
    simp
  | ok k =>
    obtain ⟨P, Q, hPQ, hP, hQ⟩ :=
      upload_body_phases remote localFile data name version
    refine ⟨levs ++ P, Q ++ [FtpEvent.rmd lockDir], ?_, ?_, ?_⟩
    · unfold FTPConnection.upload_local_data ftp_lock_run
      rw [hL]
      show levs ++ (upload_body remote localFile data name version).2 ++
          [FtpEvent.rmd lockDir] =
        (levs ++ P) ++ (Q ++ [FtpEvent.rmd lockDir])
      rw [hPQ]
      simp [List.append_assoc]
    · intro x hx
      rcases List.mem_append.mp hx with h | h
      · exact hlevs x h
      · exact hP x h
    · intro x hx
      rcases List.mem_append.mp hx with h | h
      · exact hQ x h
      · rw [List.mem_singleton.mp h]
        rfl

/-- C1: in every run of `upload_local_data` on a file-transfer connection,
no repodata-index STOR precedes any binary-package STOR: wherever a
binary-package STOR occurs in the run's trace, no repodata-index STOR
(plain or compressed) occurs anywhere before it — equivalently, every
binary STOR completes before any repodata-index STOR is issued. -/
theorem C1_binaries_before_repodata (free : Nat → Bool)
    (remote : String → FetchResult) (localFile : String → List Nat)
    (data : ChannelData) (name version : Option String)
    (l1 l2 : List FtpEvent) (e : FtpEvent)
    (hsplit : (FTPConnection.upload_local_data free remote localFile data
        name version).2 = l1 ++ e :: l2)
    (hbin : isStorBinary e = true) :
    ∀ y ∈ l1, isStorRepodata y = false := by
  obtain ⟨P, Q, hPQ, hP, hQ⟩ :=
    upload_phases free remote localFile data name version
  exact phase_split Q hQ P hP l1 e l2 (by rw [← hPQ, hsplit]) hbin

theorem C1_witness :
    ([FtpEvent.mkd ".lock", FtpEvent.retr "noarch/repodata.json",
      FtpEvent.retr "osx-64/repodata.json",
      FtpEvent.retr "linux-64/repodata.json",
      FtpEvent.retr "linux-32/repodata.json",
      FtpEvent.retr "win-64/repodata.json",
      FtpEvent.retr "win-32/repodata.json",
      FtpEvent.mkd "noarch"].all (fun y => !(isStorRepodata y))) = true := by
  have h := C1_binaries_before_repodata free0 remote0 localFile0 data0
    Option.none Option.none
    [FtpEvent.mkd ".lock", FtpEvent.retr "noarch/repodata.json",
     FtpEvent.retr "osx-64/repodata.json",
     FtpEvent.retr "linux-64/repodata.json",
     FtpEvent.retr "linux-32/repodata.json",
     FtpEvent.retr "win-64/repodata.json",
     FtpEvent.retr "win-32/repodata.json",
     FtpEvent.mkd "noarch"]
    [FtpEvent.storRepodata "noarch/repodata.json"
       (strBytes (serializeRepodata rdNoarchMerged)),
     FtpEvent.storRepodata "noarch/repodata.json.bz2"
       (bz2Compress (strBytes (serializeRepodata rdNoarchMerged))),
     FtpEvent.rmd ".lock"]
    (FtpEvent.storBinary "noarch/foo-1.0-0.tar.bz2" [1, 2, 3])
    (by
      unfold FTPConnection.upload_local_data ftp_lock_run
      rw [lockAcquire_free0]
      decide)
    rfl
  rw [List.all_eq_true]
  intro y hy
  rw [h y hy]
  rfl

theorem updateAt_map_fst {α : Type} (k : String) (f : α → α)
    (l : List (String × α)) :
    (updateAt k f l).map Prod.fst = l.map Prod.fst := by
  induction l with
  | nil => rfl
  | cons p rest ih =>
    by_cases hp : p.1 = k <;> simp [updateAt, hp] at ih ⊢ <;> exact ih

theorem updateAt_cons {α : Type} (k : String) (f : α → α) (p : String × α)
    (rest : List (String × α)) :
    updateAt k f (p :: rest) =
      (if p.1 = k then (p.1, f p.2) else p) :: updateAt k f rest := rfl

theorem dictLookup_updateAt_self {α : Type} (k : String) (f : α → α)
    (l : List (String × α)) :
    dictLookup k (updateAt k f l) = (dictLookup k l).map f := by
  induction l with
  | nil => rfl
  | cons p rest ih =>
    rw [updateAt_cons]
    by_cases hp : p.1 = k
    · rw [if_pos hp]
      simp [dictLookup, hp]
    · rw [if_neg hp]
      simp [dictLookup, hp, ih]

theorem dictLookup_updateAt_ne {α : Type} {s k : String} (h : s ≠ k)
    (f : α → α) (l : List (String × α)) :
    dictLookup s (updateAt k f l) = dictLookup s l := by
  induction l with
  | nil => rfl
  | cons p rest ih =>
    rw [updateAt_cons]
    by_cases hp : p.1 = k
    · have hps : ¬ p.1 = s := by rw [hp]; exact fun hh => h hh.symm
      rw [if_pos hp]
      simp [dictLookup, hps, ih]
    · rw [if_neg hp]
      by_cases hps : p.1 = s
      · simp [dictLookup, hps]
      · simp [dictLookup, hps, ih]

theorem dictInsert_isEmpty {α : Type} (k : String) (v : α)
    (l : List (String × α)) :
    (dictInsert k v l).isEmpty = false := by
  unfold dictInsert
  split
  · cases l with
    | nil => simp_all
    | cons p rest => simp
  · simp

theorem any_key_lookup_isSome {α : Type} (l : List (String × α)) (k : String)
    (h : l.any (fun p => p.1 == k) = true) :
    ∃ v, dictLookup k l = some v := by
  induction l with
  | nil => simp at h
  | cons p rest ih =>
    by_cases hp : p.1 = k
    · exact ⟨p.2, by simp [dictLookup, hp]⟩
    · simp [List.any_cons, hp] at h
      obtain ⟨v, hv⟩ := ih (by simpa using h)
      exact ⟨v, by simp [dictLookup, hp, hv]⟩

theorem mem_keys_any {α : Type} (l : List (String × α)) (k : String)
    (h : k ∈ l.map Prod.fst) : l.any (fun p => p.1 == k) = true := by
  rw [List.any_eq_true]
  rw [List.mem_map] at h
  obtain ⟨p, hp, hpk⟩ := h
  exact ⟨p, hp, by simp [hpk]⟩

theorem add_ok_props {cd cd' : ChannelData} {fn : String}
    {sp : PackageSpec} (h : cd.add fn sp = .ok cd') :
    cd'.repodata.map Prod.fst = cd.repodata.map Prod.fst ∧
    cd'.root = cd.root ∧
    ∀ s, subdirNonempty cd' s =
      (subdirNonempty cd s || (sp.subdir == s)) := by
  unfold ChannelData.add at h
  split at h
  case isTrue hany =>
    have hcd' : cd' = ⟨cd.root,
        updateAt sp.subdir
          (fun rd => ⟨rd.info, dictInsert fn sp rd.packages⟩)
          cd.repodata⟩ := by
      injection h with hh
      exact hh.symm
    subst hcd'
    refine ⟨?_, rfl, ?_⟩
    · show (updateAt sp.subdir
          (fun rd => ⟨rd.info, dictInsert fn sp rd.packages⟩)
          cd.repodata).map Prod.fst = cd.repodata.map Prod.fst
      exact updateAt_map_fst _ _ _
    intro s
    by_cases hss : sp.subdir = s
    · subst hss
      obtain ⟨v, hv⟩ := any_key_lookup_isSome cd.repodata sp.subdir hany
      simp [subdirNonempty, dictLookup_updateAt_self, hv, Option.map,
        dictInsert_isEmpty]
    · have hss' : s ≠ sp.subdir := fun hh => hss hh.symm
      simp [subdirNonempty, dictLookup_updateAt_ne hss', hss]
  case isFalse =>
    exact absurd h (by simp)

theorem addAll_ok_props : ∀ (es : List (String × PackageSpec))
    (cd cd' : ChannelData), addAll cd es = .ok cd' →
    cd'.repodata.map Prod.fst = cd.repodata.map Prod.fst ∧
    cd'.root = cd.root ∧
    ∀ s, subdirNonempty cd' s =
      (subdirNonempty cd s || es.any (fun q => q.2.subdir == s)) := by
  intro es
  induction es with
  | nil =>
    intro cd cd' h
    have hcc : cd = cd' := by
      unfold addAll at h
      injection h
    subst hcc
    exact ⟨rfl, rfl, by simp⟩
  | cons q rest ih =>
    intro cd cd' h
    rcases q with ⟨fn, sp⟩
    unfold addAll at h
    rcases hA : cd.add fn sp with e | cd1
    · rw [hA] at h
      exact absurd h (by simp)
    · rw [hA] at h
      obtain ⟨hk1, hr1, hn1⟩ := add_ok_props hA
      obtain ⟨hk2, hr2, hn2⟩ := ih cd1 cd' h
      refine ⟨hk2.trans hk1, hr2.trans hr1, ?_⟩
      intro s
      rw [hn2 s, hn1 s]
      simp [Bool.or_assoc]

theorem addAll_ok_of_keys : ∀ (es : List (String × PackageSpec))
    (cd : ChannelData),
    (∀ q ∈ es, q.2.subdir ∈ cd.repodata.map Prod.fst) →
    ∃ cd', addAll cd es = .ok cd' := by
  intro es
  induction es with
  | nil => intro cd _; exact ⟨cd, rfl⟩
  | cons q rest ih =>
    intro cd hk
    rcases q with ⟨fn, sp⟩
    have hmem : sp.subdir ∈ cd.repodata.map Prod.fst :=
      hk (fn, sp) (List.mem_cons_self _ _)
    have hany := mem_keys_any cd.repodata sp.subdir hmem
    have hA : cd.add fn sp = .ok ⟨cd.root,
        updateAt sp.subdir
          (fun rd => ⟨rd.info, dictInsert fn sp rd.packages⟩)
          cd.repodata⟩ := by
      unfold ChannelData.add
      rw [if_pos hany]
    obtain ⟨hk1, _, _⟩ := add_ok_props hA
    obtain ⟨cd', hrest⟩ := ih _ (fun q hq => by
      rw [hk1]
      exact hk q (List.mem_cons_of_mem _ hq))
    refine ⟨cd', ?_⟩
    unfold addAll
    rw [hA]
    exact hrest

theorem assoc_eq_map_keys {α : Type} (d : α) : ∀ (l : List (String × α)),
    (l.map Prod.fst).Nodup →
    l = (l.map Prod.fst).map (fun s => (s, (dictLookup s l).getD d)) := by
  intro l
  induction l with
  | nil => intro _; rfl
  | cons p rest ih =>
    intro h
    rw [List.map_cons, List.map_cons] at *
    rw [List.nodup_cons] at h
    obtain ⟨hp, hrest⟩ := h
    congr 1
    · simp [dictLookup]
    · have hpt : ∀ s ∈ rest.map Prod.fst,
          dictLookup s (p :: rest) = dictLookup s rest := by
        intro s hs
        have hne : ¬ p.1 = s := fun hh => hp (hh ▸ hs)
        simp [dictLookup, hne]
      calc rest
          = (rest.map Prod.fst).map (fun s => (s, (dictLookup s rest).getD d)) :=
            ih hrest
        _ = (rest.map Prod.fst).map
              (fun s => (s, (dictLookup s (p :: rest)).getD d)) := by
            apply List.map_congr_left
            intro s hs
            rw [hpt s hs]

theorem mapfst_iter_eq (F : String → Repodata) : ∀ (l : List String),
    ((l.map (fun s => (s, F s))).flatMap (fun q =>
      if q.2.packages.isEmpty then []
      else [(repodataPath q.1, strBytes (serializeRepodata q.2)),
            (repodataPath q.1 ++ ChannelData.ZIP_EXT,
             bz2Compress (strBytes (serializeRepodata q.2)))])).map Prod.fst =
    (l.filter (fun s => !(F s).packages.isEmpty)).flatMap
      (fun s => [repodataPath s, repodataPath s ++ ChannelData.ZIP_EXT]) := by
  intro l
  induction l with
  | nil => rfl
  | cons s rest ih =>
    rw [List.map_cons, List.flatMap_cons, List.map_append, ih,
      List.filter_cons]
    by_cases hemp : (F s).packages.isEmpty = true
    · rw [if_pos hemp]
      have hcond : ¬ ((!(F s).packages.isEmpty) = true) := by simp [hemp]
      rw [if_neg hcond]
      simp
    · have h' : (F s).packages.isEmpty = false := by
        rw [← Bool.not_eq_true]
        exact hemp
      rw [if_neg hemp]
      have hcond : (!(F s).packages.isEmpty) = true := by simp [h']
      rw [if_pos hcond, List.flatMap_cons]
      simp

/-- C2 (amended): in a completing `uploadLocalData` run on a file-transfer
connection, the repodata files stored in step 4 are exactly the plain and
compressed index for every subdir that is non-empty in the delta store —
i.e. every subdir that received at least one matching local entry or that
already had at least one package in the freshly loaded remote state — and
no repodata file is stored for any other subdir. -/
theorem C2_repodata_for_nonempty_subdirs (free : Nat → Bool)
    (remote : String → FetchResult) (localFile : String → List Nat)
    (data : ChannelData) (name version : Option String) (r : String)
    (hlock : ∃ k, (lockAcquire free).1 = .ok k)
    (hnf : ∀ s ∈ ChannelData.SUBDIRS,
      (remote (repodataPath s)).isFault = false)
    (hsub : ∀ q ∈ data.iter_entries name version,
      q.2.subdir ∈ ChannelData.SUBDIRS)
    (hroot : data.root = some r) :
    (FTPConnection.upload_local_data free remote localFile data name
        version).2.filterMap storRepodataPath =
      (ChannelData.SUBDIRS.filter (fun s =>
        remoteNonempty remote s ||
          deltaTouched data name version s)).flatMap
        (fun s => [repodataPath s, repodataPath s ++ ChannelData.ZIP_EXT]) := by
  obtain ⟨k, hk⟩ := hlock
  rcases hL : lockAcquire free with ⟨res, levs⟩
  have hres : res = .ok k := by rw [hL] at hk; exact hk
  subst hres
  have hload : ChannelData.load remote =
      (.ok (loadedStore remote),
       ChannelData.SUBDIRS.map (fun s => FtpEvent.retr (repodataPath s))) := by
    simp [ChannelData.load, loadGo_no_fault remote _ hnf, Except.map,
      loadedStore]
  have hkeys : (loadedStore remote).repodata.map Prod.fst =
      ChannelData.SUBDIRS := by
    show (ChannelData.SUBDIRS.map
      (fun s => (s, fetchedOrEmpty remote s))).map Prod.fst = _
    rw [List.map_map]
    rw [show (Prod.fst ∘ fun s => (s, fetchedOrEmpty remote s)) =
      @id String from rfl, List.map_id]
  obtain ⟨newData, hA⟩ := addAll_ok_of_keys (data.iter_entries name version)
    (loadedStore remote) (fun q hq => by rw [hkeys]; exact hsub q hq)
  obtain ⟨hk2, _, hn2⟩ := addAll_ok_props _ _ _ hA
  have hrun : (FTPConnection.upload_local_data free remote localFile data
      name version).2 =
      levs ++ (ChannelData.SUBDIRS.map
          (fun s => FtpEvent.retr (repodataPath s)) ++
        (data.iter_paths name version).flatMap (fun rp =>
          [FtpEvent.mkd (dirname rp),
           FtpEvent.storBinary rp
             (localFile ((some r).getD "" ++ "/" ++ rp))]) ++
        newData.iter_repodata_filehandles.map
          (fun pr => FtpEvent.storRepodata pr.1 pr.2)) ++
      [FtpEvent.rmd lockDir] := by
    unfold FTPConnection.upload_local_data ftp_lock_run
    rw [hL]
    simp only [upload_body, hload, hA, hroot]
  rw [hrun]
  rw [List.filterMap_append, List.filterMap_append, List.filterMap_append,
    List.filterMap_append]
  have e1 : levs.filterMap storRepodataPath = [] := by
    rw [List.filterMap_eq_nil_iff]
    intro x hx
    rcases lockAcquire_events free x (by rw [hL]; exact hx) with h | h <;>
      rw [h] <;> rfl
  have e2 : (ChannelData.SUBDIRS.map
      (fun s => FtpEvent.retr (repodataPath s))).filterMap
      storRepodataPath = [] := by
    rw [List.filterMap_eq_nil_iff]
    intro x hx
    obtain ⟨t, _, rfl⟩ := List.mem_map.mp hx
    rfl
  have e3 : ((data.iter_paths name version).flatMap (fun rp =>
      [FtpEvent.mkd (dirname rp),
       FtpEvent.storBinary rp
         (localFile ((some r).getD "" ++ "/" ++ rp))])).filterMap
      storRepodataPath = [] := by
    rw [List.filterMap_eq_nil_iff]
    intro x hx
    obtain ⟨rp, _, hx2⟩ := List.mem_flatMap.mp hx
    rcases List.mem_cons.mp hx2 with rfl | hx3
    · rfl
    · rw [List.mem_singleton.mp hx3]
      rfl
  have e4 : (newData.iter_repodata_filehandles.map
      (fun pr => FtpEvent.storRepodata pr.1 pr.2)).filterMap
      storRepodataPath =
      newData.iter_repodata_filehandles.map Prod.fst := by
    rw [List.filterMap_map]
    rw [show (storRepodataPath ∘ fun pr : String × List Nat =>
      FtpEvent.storRepodata pr.1 pr.2) = some ∘ Prod.fst from rfl]
    rw [List.filterMap_eq_map]
  have e5 : ([FtpEvent.rmd lockDir]).filterMap storRepodataPath = [] := rfl
  rw [e1, e2, e3, e4, e5]
  simp only [List.nil_append, List.append_nil]
  have hkeys' : newData.repodata.map Prod.fst = ChannelData.SUBDIRS := by
    rw [hk2, hkeys]
  have hnodup : (newData.repodata.map Prod.fst).Nodup := by
    rw [hkeys']
    decide
  have hform := assoc_eq_map_keys emptyRepodata newData.repodata hnodup
  rw [hkeys'] at hform
  rw [ChannelData.iter_repodata_filehandles]
  rw [show newData.repodata = ChannelData.SUBDIRS.map (fun s =>
      (s, (dictLookup s newData.repodata).getD emptyRepodata)) from hform]
  rw [mapfst_iter_eq
    (fun s => (dictLookup s newData.repodata).getD emptyRepodata)
    ChannelData.SUBDIRS]
  congr 1
  apply List.filter_congr
  intro s hs
  obtain ⟨v, hv⟩ : ∃ v, dictLookup s newData.repodata = some v :=
    any_key_lookup_isSome _ _ (mem_keys_any _ _ (by rw [hkeys']; exact hs))
  have hsn : subdirNonempty newData s = !(v.packages.isEmpty) := by
    simp [subdirNonempty, hv]
  have hnd0 : subdirNonempty (loadedStore remote) s =
      remoteNonempty remote s := by
    have hlk : dictLookup s (loadedStore remote).repodata =
        some (fetchedOrEmpty remote s) := by
      show dictLookup s (ChannelData.SUBDIRS.map
        (fun t => (t, fetchedOrEmpty remote t))) = _
      exact dictLookup_map_graph _ _ _ hs
    rcases hfr : remote (repodataPath s) with rd | _ | e
    · simp [subdirNonempty, hlk, fetchedOrEmpty, hfr, remoteNonempty]
    · simp [subdirNonempty, hlk, fetchedOrEmpty, hfr, remoteNonempty,
        emptyRepodata]
    · simp [subdirNonempty, hlk, fetchedOrEmpty, hfr, remoteNonempty,
        emptyRepodata]
  rw [hv]
  have hgd : (some v).getD emptyRepodata = v := rfl
  rw [hgd, ← hsn, hn2 s, hnd0]
  rfl

theorem C2_witness :
    (FTPConnection.upload_local_data free0 remote1 localFile0 data0
        (some "foo") Option.none).2.filterMap storRepodataPath =
      (ChannelData.SUBDIRS.filter (fun s =>
        remoteNonempty remote1 s ||
          deltaTouched data0 (some "foo") Option.none s)).flatMap
        (fun s => [repodataPath s, repodataPath s ++ ChannelData.ZIP_EXT]) :=
  C2_repodata_for_nonempty_subdirs free0 remote1 localFile0 data0
    (some "foo") Option.none "/local"
    ⟨0, by rw [lockAcquire_free0]⟩
    (by decide) (by decide) rfl

/-- C2 (counterexample to the claim as stated): a completing run in which
the delta touches only `noarch`, yet a repodata index for `linux-64` — a
subdir that received no matching local entry but already had a package
remotely — is stored as well. -/
theorem C2_counterexample_untouched_subdir :
    (FTPConnection.upload_local_data free0 remote1 localFile0 data0
        (some "foo") Option.none).1 = .ok ["noarch/foo-1.0-0.tar.bz2"] ∧
    "linux-64/repodata.json" ∈
      (FTPConnection.upload_local_data free0 remote1 localFile0 data0
        (some "foo") Option.none).2.filterMap storRepodataPath ∧
    ((data0.iter_entries (some "foo") Option.none).all
      (fun q => !(q.2.subdir == "linux-64"))) = true := by
  refine ⟨?_, ?_, by decide⟩
  · unfold FTPConnection.upload_local_data ftp_lock_run
    rw [lockAcquire_free0]
    rfl
  · unfold FTPConnection.upload_local_data ftp_lock_run
    rw [lockAcquire_free0]
    decide
